import Mathlib

/-!
Verification of the vector/geometry math kernel of `src/include/geometry/geometry.hh`
(classes `Geometry` and `Vector`).

The C++ scalar type `real_t` is a floating-point alias whose values include the
IEEE infinities (the `Vector::infinity()` sentinel stores `+inf` components), so
scalars are modelled by the extended reals `EReal`; finite arithmetic coincides
with real arithmetic, and `+inf` is `⊤`.  IEEE NaN is not modelled; no claim
below evaluates an operation that would produce a NaN.
-/

namespace RT

/-- Modelled from the spec: `common.hh` (missing from `src/`) defines the
process-wide epsilon tolerance `EPS`, "a fixed small constant used throughout
for approximate floating-point comparisons".  A representative small value. -/
def EPS : ℝ := 1e-6

/-- Modelled from the spec: `common.hh` (missing from `src/`) provides the
scalar squaring helper (`square(x)`, written `::sqr` at its use sites). -/
noncomputable def square (x : EReal) : EReal := x * x

/-- Model of C `sqrt` on the scalar type: `sqrt(+inf) = +inf`, and on finite
values it is the real square root (of the real part). -/
noncomputable def esqrt (x : EReal) : EReal :=
  if x = ⊤ then ⊤ else ((Real.sqrt x.toReal : ℝ) : EReal)

/-- Model of C `fabs` on the scalar type. -/
noncomputable def efabs (x : EReal) : EReal := max x (-x)

/-- Model of the C expression `1 / x` on the scalar type: IEEE division gives
`1 / 0.0 = +inf`, `1 / ±inf = 0`, and the real reciprocal on finite nonzero
values (the `EReal` inverse provides the latter two). -/
noncomputable def erecip (x : EReal) : EReal := if x = 0 then ⊤ else 1 / x

/-- A scalar is finite (model of C `isfinite`). -/
def efinite (x : EReal) : Prop := x ≠ ⊤ ∧ x ≠ ⊥

/-- `class Geometry`: integer width and height. -/
structure Geometry where
  w : ℤ
  h : ℤ

/-- `Geometry::area`: `w * h`. -/
def Geometry.area (g : Geometry) : ℤ := g.w * g.h

/-- `Geometry::ratio`: `(real_t) std::max(w, h) / std::min(w, h)` — the max is
cast to the scalar type and divided by the (converted) min. -/
noncomputable def Geometry.ratio (g : Geometry) : EReal :=
  (((max g.w g.h : ℤ) : ℝ) : EReal) / (((min g.w g.h : ℤ) : ℝ) : EReal)

/-- `Geometry::contain`: `x >= 0 && x < w && y >= 0 && y < h`. -/
def Geometry.contain (g : Geometry) (x y : ℤ) : Bool :=
  decide (x ≥ 0) && decide (x < g.w) && decide (y ≥ 0) && decide (y < g.h)

/-- `class Vector`: three scalar components, default zero. -/
@[ext]
structure Vector where
  x : EReal := 0
  y : EReal := 0
  z : EReal := 0

/-- The two-point constructor `Vector(p0, p1)`: the directed difference. -/
noncomputable def Vector.fromPoints (p0 p1 : Vector) : Vector :=
  ⟨p1.x - p0.x, p1.y - p0.y, p1.z - p0.z⟩

/-- `Vector::index(int) const`: `c == 0 ? x : c == 1 ? y : z`. -/
def Vector.index (v : Vector) (c : ℤ) : EReal :=
  if c = 0 then v.x else if c = 1 then v.y else v.z

/-- The mutable-reference overload `real_t& Vector::index(int)` used as the
target of an assignment: writing `r` through the returned reference. -/
def Vector.setIndex (v : Vector) (c : ℤ) (r : EReal) : Vector :=
  if c = 0 then { v with x := r } else if c = 1 then { v with y := r }
  else { v with z := r }

/-- `Vector::sqr`: `x * x + y * y + z * z`. -/
noncomputable def Vector.sqr (v : Vector) : EReal := v.x * v.x + v.y * v.y + v.z * v.z

/-- `Vector::mod`: `sqrt(sqr())`. -/
noncomputable def Vector.mod (v : Vector) : EReal := esqrt v.sqr

/-- `Vector::dot`. -/
noncomputable def Vector.dot (v w : Vector) : EReal := v.x * w.x + v.y * w.y + v.z * w.z

noncomputable instance : Add Vector := ⟨fun a b => ⟨a.x + b.x, a.y + b.y, a.z + b.z⟩⟩

noncomputable instance : Sub Vector := ⟨fun a b => ⟨a.x - b.x, a.y - b.y, a.z - b.z⟩⟩

noncomputable instance : HMul Vector EReal Vector := ⟨fun v p => ⟨v.x * p, v.y * p, v.z * p⟩⟩

/-- `Vector::normalize` (as a pure function): scale by `m = 1 / mod()`. -/
noncomputable def Vector.normalize (v : Vector) : Vector := v * (1 / v.mod)

/-- `Vector::get_normalized`: copy and normalize. -/
noncomputable def Vector.get_normalized (v : Vector) : Vector := v.normalize

/-- `Vector::operator==`: componentwise comparison within `EPS`. -/
noncomputable def Vector.veq (a b : Vector) : Prop :=
  efabs (a.x - b.x) < (EPS : EReal) ∧ efabs (a.y - b.y) < (EPS : EReal) ∧
    efabs (a.z - b.z) < (EPS : EReal)

/-- `Vector::infinity()`: `Vector(inf, inf)` — the third constructor argument
defaults to `0`, so `z` stays `0`. -/
def Vector.infinity : Vector := ⟨⊤, ⊤, 0⟩

/-- `Vector::isnoraml` (sic): all three components finite. -/
def Vector.isnoraml (v : Vector) : Prop :=
  efinite v.x ∧ efinite v.y ∧ efinite v.z

/-- The condition of the `m_assert` guarding `Vector::reflection`:
`fabs(v.sqr() - 1) < EPS && (sqr() - 1 < EPS)` — note the second conjunct
has no `fabs`. -/
noncomputable def Vector.reflectionAssertOk (self v : Vector) : Prop :=
  efabs (v.sqr - 1) < (EPS : EReal) ∧ self.sqr - 1 < (EPS : EReal)

/-- `Vector::reflection`: `*this * 2 * dot(v) - v`. -/
noncomputable def Vector.reflection (self v : Vector) : Vector :=
  self * (2 : EReal) * (self.dot v) - v

/-- `Vector::transmission`: Snell refraction with the infinity sentinel as the
failure signal, transcribed line by line from the source. -/
noncomputable def Vector.transmission (self : Vector) (v_in : Vector)
    (density : EReal) : Vector :=
  let ret := Vector.infinity
  let density := erecip density
  let cos1 := -(self.dot v_in)
  if cos1 < (EPS : EReal) then ret
  else
    let cos2 := 1 - square density * (1 - square cos1)
    if cos2 < 0 then ret
    else
      let cos2 := esqrt cos2
      let ret := v_in * density + self * (density * cos1 - cos2)
      ret.get_normalized

/-- A triple of honest reals, for stating claims about finite inputs. -/
@[ext]
structure RVec where
  x : ℝ
  y : ℝ
  z : ℝ

/-- View a real triple as a `Vector` (all components finite). -/
def toV (p : RVec) : Vector := ⟨(p.x : EReal), (p.y : EReal), (p.z : EReal)⟩

/-- Real-level dot product, used to phrase the claims' side conditions. -/
def dotR (a b : RVec) : ℝ := a.x * b.x + a.y * b.y + a.z * b.z

/-- The claims' `cos2_sq = 1 − (1/d)²·(1 − cos1²)`, evaluated in the program's
scalar arithmetic (so `1/d` is the IEEE reciprocal, `+∞` at `d = 0`); this is
exactly the `cos2` quantity the code sign-tests.  For `d ≠ 0` it is the real
formula (see `cos2sqE_coe`). -/
noncomputable def cos2sqE (n v : RVec) (d : ℝ) : EReal :=
  1 - square (erecip (d : EReal)) * (1 - square ((-dotR n v : ℝ) : EReal))

/-- Follows the spec's words for `reflection`: "the mirror-reflected direction
using the standard formula `2·(d·n)·d − n`" where `d` is `*this`. -/
def reflectionSpec (d n : RVec) : RVec :=
  ⟨2 * dotR d n * d.x - n.x, 2 * dotR d n * d.y - n.y, 2 * dotR d n * d.z - n.z⟩

/-- Spec-level normalization of a finite triple: scale by the reciprocal of
the Euclidean length ("scales the vector to unit length"). -/
noncomputable def normalizeR (p : RVec) : RVec :=
  ⟨p.x * (1 / Real.sqrt (p.x * p.x + p.y * p.y + p.z * p.z)),
   p.y * (1 / Real.sqrt (p.x * p.x + p.y * p.y + p.z * p.z)),
   p.z * (1 / Real.sqrt (p.x * p.x + p.y * p.y + p.z * p.z))⟩

/-- Follows the spec's words for the non-failure case of `transmission`:
effective ratio `r = 1/density`, `cos1 = −(normal·v_in)`,
`cos2 = sqrt(1 − r²·(1 − cos1²))`, result =
normalize(`v_in * r + normal * (r·cos1 − cos2)`). -/
noncomputable def transmissionSpec (n v : RVec) (d : ℝ) : RVec :=
  let r := 1 / d
  let cos1 := -(dotR n v)
  let cos2 := Real.sqrt (1 - r ^ 2 * (1 - cos1 ^ 2))
  normalizeR ⟨v.x * r + n.x * (r * cos1 - cos2),
              v.y * r + n.y * (r * cos1 - cos2),
              v.z * r + n.z * (r * cos1 - cos2)⟩

/-! ### Bridging lemmas: the `EReal` operations restricted to finite vectors -/

theorem Vector.add_def (a b : Vector) : a + b = ⟨a.x + b.x, a.y + b.y, a.z + b.z⟩ := rfl

theorem Vector.sub_def (a b : Vector) : a - b = ⟨a.x - b.x, a.y - b.y, a.z - b.z⟩ := rfl

theorem Vector.smul_def (a : Vector) (p : EReal) : a * p = ⟨a.x * p, a.y * p, a.z * p⟩ := rfl

@[simp] theorem toV_x (p : RVec) : (toV p).x = (p.x : EReal) := rfl

@[simp] theorem toV_y (p : RVec) : (toV p).y = (p.y : EReal) := rfl

@[simp] theorem toV_z (p : RVec) : (toV p).z = (p.z : EReal) := rfl

theorem esqrt_coe (r : ℝ) : esqrt (r : EReal) = ((Real.sqrt r : ℝ) : EReal) := by
  simp [esqrt, EReal.coe_ne_top]

theorem efabs_coe (r : ℝ) : efabs (r : EReal) = ((|r| : ℝ) : EReal) := by
  rw [efabs, abs_eq_max_neg, ← EReal.coe_neg]
  exact (EReal.coe_strictMono.monotone.map_max).symm

theorem one_div_coe (r : ℝ) : (1 : EReal) / (r : EReal) = ((1 / r : ℝ) : EReal) := by
  rw [one_div, one_div, ← EReal.coe_inv]

theorem coe_div_coe (a b : ℝ) : (a : EReal) / (b : EReal) = ((a / b : ℝ) : EReal) := by
  rw [div_eq_mul_inv, div_eq_mul_inv, ← EReal.coe_inv, ← EReal.coe_mul]

theorem toV_add (a b : RVec) : toV a + toV b = toV ⟨a.x + b.x, a.y + b.y, a.z + b.z⟩ := by
  simp [Vector.add_def, toV]

theorem toV_smul (a : RVec) (r : ℝ) :
    toV a * (r : EReal) = toV ⟨a.x * r, a.y * r, a.z * r⟩ := by
  simp [Vector.smul_def, toV]

theorem toV_dot (a b : RVec) : (toV a).dot (toV b) = ((dotR a b : ℝ) : EReal) := by
  simp [Vector.dot, toV, dotR]

theorem toV_sqr (a : RVec) :
    (toV a).sqr = ((a.x * a.x + a.y * a.y + a.z * a.z : ℝ) : EReal) := by
  simp [Vector.sqr, toV]

theorem toV_inj {a b : RVec} (h : toV a = toV b) : a = b := by
  cases a; cases b
  simp only [toV, Vector.mk.injEq, EReal.coe_eq_coe_iff] at h
  simp [h.1, h.2.1, h.2.2]

theorem toV_ne_infinity (a : RVec) : toV a ≠ Vector.infinity := by
  simp [toV, Vector.infinity, Vector.mk.injEq, EReal.coe_ne_top]

theorem isnoraml_toV (a : RVec) : (toV a).isnoraml := by
  refine ⟨⟨?_, ?_⟩, ⟨?_, ?_⟩, ⟨?_, ?_⟩⟩ <;> simp [toV, EReal.coe_ne_top, EReal.coe_ne_bot]

theorem toV_get_normalized (a : RVec) :
    (toV a).get_normalized =
      toV ⟨a.x * (1 / Real.sqrt (a.x * a.x + a.y * a.y + a.z * a.z)),
           a.y * (1 / Real.sqrt (a.x * a.x + a.y * a.y + a.z * a.z)),
           a.z * (1 / Real.sqrt (a.x * a.x + a.y * a.y + a.z * a.z))⟩ := by
  rw [Vector.get_normalized, Vector.normalize, Vector.mod, toV_sqr, esqrt_coe,
    one_div_coe, toV_smul]

theorem square_coe (r : ℝ) : square (r : EReal) = ((r * r : ℝ) : EReal) := by
  rw [square, ← EReal.coe_mul]

theorem erecip_coe (d : ℝ) (hd : d ≠ 0) : erecip (d : EReal) = ((1 / d : ℝ) : EReal) := by
  rw [erecip, if_neg (fun h => hd (EReal.coe_eq_zero.mp h)), one_div_coe]

theorem erecip_zero : erecip ((0 : ℝ) : EReal) = ⊤ := by
  rw [erecip, if_pos (EReal.coe_eq_zero.mpr rfl)]

theorem square_top : square ⊤ = ⊤ := EReal.top_mul_top

/-- For nonzero density the program's `cos2_sq` is the claims' real formula. -/
theorem cos2sqE_coe (n v : RVec) (d : ℝ) (hd : d ≠ 0) :
    cos2sqE n v d = ((1 - (1 / d) ^ 2 * (1 - (-dotR n v) ^ 2) : ℝ) : EReal) := by
  rw [cos2sqE, erecip_coe d hd]
  simp only [square_coe, ← EReal.coe_one, ← EReal.coe_mul, ← EReal.coe_sub]
  rw [EReal.coe_eq_coe_iff]
  ring

/-- At density 0 the code computes `1/0.0 = +inf`, and for `0 < cos1 < 1` the
`cos2_sq` quantity is `1 - inf = -inf`: the total-internal-reflection branch. -/
theorem cos2sqE_zero_bot (n v : RVec) (h0 : 0 < -dotR n v) (h1 : -dotR n v < 1) :
    cos2sqE n v 0 = ⊥ := by
  rw [cos2sqE, erecip_zero, square_top, square_coe,
    show (1 : EReal) = ((1 : ℝ) : EReal) from rfl, ← EReal.coe_sub,
    EReal.top_mul_of_pos (EReal.coe_pos.mpr (by nlinarith)), EReal.sub_top]

theorem toV_get_normalized' (a : RVec) : (toV a).get_normalized = toV (normalizeR a) := by
  rw [toV_get_normalized, normalizeR]

/-- First failure branch of `transmission` on finite inputs: grazing/exiting
ray (`cos1 < EPS`). -/
theorem transmission_toV_fail1 (n v : RVec) (d : ℝ) (h : -dotR n v < EPS) :
    (toV n).transmission (toV v) ((d : ℝ) : EReal) = Vector.infinity := by
  simp only [Vector.transmission, toV_dot, coe_div_coe, square_coe, ← EReal.coe_neg,
    ← EReal.coe_one, ← EReal.coe_mul, ← EReal.coe_sub, ← EReal.coe_zero,
    EReal.coe_lt_coe_iff]
  rw [if_pos h]

/-- Second failure branch of `transmission` on finite inputs: total internal
reflection, with the sign test on the program's own `cos2_sq` quantity (so
the `density = 0` failures are covered). -/
theorem transmission_toV_fail2 (n v : RVec) (d : ℝ)
    (h1 : ¬ -dotR n v < EPS) (h2 : cos2sqE n v d < 0) :
    (toV n).transmission (toV v) ((d : ℝ) : EReal) = Vector.infinity := by
  rw [cos2sqE] at h2
  simp only [square_coe, ← EReal.coe_neg, ← EReal.coe_one, ← EReal.coe_mul,
    ← EReal.coe_sub, ← EReal.coe_zero] at h2
  simp only [Vector.transmission, toV_dot, square_coe, ← EReal.coe_neg, ← EReal.coe_one,
    ← EReal.coe_mul, ← EReal.coe_sub, ← EReal.coe_zero, EReal.coe_lt_coe_iff]
  rw [if_neg h1, if_pos h2]

/-- Success branch of `transmission` on finite inputs and nonzero density: the
code refines the spec-level refraction formula. -/
theorem transmission_toV_success (n v : RVec) (d : ℝ) (hd : d ≠ 0)
    (h1 : ¬ -dotR n v < EPS)
    (h2 : ¬ 1 - (1 / d) ^ 2 * (1 - (-dotR n v) ^ 2) < 0) :
    (toV n).transmission (toV v) ((d : ℝ) : EReal) = toV (transmissionSpec n v d) := by
  simp only [Vector.transmission, toV_dot, erecip_coe d hd, square_coe, ← EReal.coe_neg,
    ← EReal.coe_one, ← EReal.coe_mul, ← EReal.coe_sub, ← EReal.coe_zero,
    EReal.coe_lt_coe_iff]
  split_ifs with hA
  · ring_nf at hA h2
    exact absurd hA h2
  · rw [esqrt_coe, ← EReal.coe_sub, toV_smul, toV_smul, toV_add, toV_get_normalized',
      transmissionSpec]
    have hs : 1 - 1 / d * (1 / d) * (1 - -dotR n v * -dotR n v)
        = 1 - (1 / d) ^ 2 * (1 - (-dotR n v) ^ 2) := by ring
    rw [hs]

theorem toV_sub (a b : RVec) : toV a - toV b = toV ⟨a.x - b.x, a.y - b.y, a.z - b.z⟩ := by
  simp [Vector.sub_def, toV]

theorem coe_two : ((2 : ℝ) : EReal) = (2 : EReal) := by norm_cast

theorem toV_veq (a b : RVec) :
    Vector.veq (toV a) (toV b) ↔
      |a.x - b.x| < EPS ∧ |a.y - b.y| < EPS ∧ |a.z - b.z| < EPS := by
  unfold Vector.veq
  simp only [toV_x, toV_y, toV_z, ← EReal.coe_sub, efabs_coe, EReal.coe_lt_coe_iff]

/-! ### The claims -/

/-- C7: `Geometry::contain` returns `true` exactly on the half-open rectangle
`[0, w) × [0, h)`; in particular `Geometry(4,2).contain(3,1)` is `true` and
`Geometry(4,2).contain(4,1)` is `false`. -/
theorem contain_iff (g : Geometry) (x y : ℤ) :
    ( Geometry.contain g x y = true ↔ 0 ≤ x ∧ x < g.w ∧ 0 ≤ y ∧ y < g.h) ∧
    Geometry.contain ⟨4, 2⟩ 3 1 = true ∧ Geometry.contain ⟨4, 2⟩ 4 1 = false := by
  refine ⟨?_, by decide, by decide⟩
  simp [ Geometry.contain, and_assoc]

/-- C8: `Vector::index` maps 0 to x, 1 to y and every other argument to z with
no bounds check, and the mutable-reference overload selects the same component. -/
theorem index_fallthrough (v : Vector) (r : EReal) (c : ℤ) (h0 : c ≠ 0) (h1 : c ≠ 1) :
    v.index 0 = v.x ∧ v.index 1 = v.y ∧ v.index c = v.z ∧
    v.setIndex 0 r = { v with x := r } ∧ v.setIndex 1 r = { v with y := r } ∧
    v.setIndex c r = { v with z := r } := by
  refine ⟨rfl, ?_, ?_, rfl, ?_, ?_⟩ <;> simp [Vector.index, Vector.setIndex, h0, h1]

theorem index_fallthrough_witness :
    Vector.infinity.index 5 = Vector.infinity.z ∧
    Vector.infinity.setIndex 5 1 = { Vector.infinity with z := 1 } :=
  ⟨(index_fallthrough Vector.infinity 1 5 (by decide) (by decide)).2.2.1,
   (index_fallthrough Vector.infinity 1 5 (by decide) (by decide)).2.2.2.2.2⟩

/-- C9: the two-point constructor is the directed difference, so adding it back
to the first point reproduces the second within `EPS`. -/
theorem fromPoints_roundtrip (p0 p1 : RVec) :
    Vector.veq (toV p0 + Vector.fromPoints (toV p0) (toV p1)) (toV p1) := by
  have h : toV p0 + Vector.fromPoints (toV p0) (toV p1) = toV p1 := by
    unfold Vector.fromPoints
    rw [Vector.add_def]
    simp only [toV_x, toV_y, toV_z, ← EReal.coe_sub, ← EReal.coe_add]
    unfold toV
    norm_num
  rw [h, toV_veq]
  norm_num [EPS]

/-- C6 counterexample: `Geometry(-1, 2)` satisfies the claim's precondition
`min(w, h) ≠ 0`, yet its aspect ratio is `-2 < 1`. -/
theorem ratio_not_ge_one_cex :
    min (Geometry.mk (-1) 2).w (Geometry.mk (-1) 2).h ≠ 0 ∧
    Geometry.ratio ⟨-1, 2⟩ < 1 := by
  refine ⟨by decide, ?_⟩
  have h : Geometry.ratio ⟨-1, 2⟩ = ((-2 : ℝ) : EReal) := by
    unfold Geometry.ratio
    rw [coe_div_coe]
    norm_num
  rw [h, show (1 : EReal) = ((1 : ℝ) : EReal) from rfl, EReal.coe_lt_coe_iff]
  norm_num

/-- C6 (amended to `0 < min(w, h)`): the aspect ratio is `max(w,h)/min(w,h)` as
a real number and is at least 1; `Geometry(4,2)` has ratio `2.0` and area `8`. -/
theorem ratio_area_ok (g : Geometry) (hmin : 0 < min g.w g.h) :
    ( Geometry.ratio g = ((((max g.w g.h : ℤ) : ℝ) / ((min g.w g.h : ℤ) : ℝ) : ℝ) : EReal) ∧
      ((1 : ℝ) : EReal) ≤ Geometry.ratio g) ∧
    Geometry.ratio ⟨4, 2⟩ = ((2 : ℝ) : EReal) ∧ Geometry.area ⟨4, 2⟩ = 8 := by
  have hdiv : ∀ g' : Geometry,
      Geometry.ratio g' = ((((max g'.w g'.h : ℤ) : ℝ) / ((min g'.w g'.h : ℤ) : ℝ) : ℝ) : EReal) := by
    intro g'
    unfold Geometry.ratio
    rw [coe_div_coe]
  refine ⟨⟨hdiv g, ?_⟩, ?_, by decide⟩
  · rw [hdiv g, EReal.coe_le_coe_iff, one_le_div (by exact_mod_cast hmin)]
    exact_mod_cast min_le_max
  · rw [hdiv ⟨4, 2⟩]
    norm_num

theorem ratio_area_ok_witness : Geometry.ratio ⟨4, 2⟩ = ((2 : ℝ) : EReal) :=
  (ratio_area_ok ⟨4, 2⟩ (by decide)).2.1

/-- C4 (code bug): the `m_assert` in `Vector::reflection` omits `fabs` in its
second conjunct, so the zero incident vector passes the assertion although its
squared length differs from 1 by `1 ≥ EPS`. -/
theorem reflection_assert_one_sided :
    Vector.reflectionAssertOk (toV ⟨0, 0, 0⟩) (toV ⟨1, 0, 0⟩) ∧
    ¬ efabs ((toV ⟨0, 0, 0⟩).sqr - 1) < (EPS : EReal) := by
  unfold Vector.reflectionAssertOk
  rw [toV_sqr, toV_sqr]
  rw [show ((1 : EReal)) = ((1 : ℝ) : EReal) from rfl]
  simp only [← EReal.coe_sub, efabs_coe, EReal.coe_lt_coe_iff]
  norm_num [EPS]

/-- C5: for unit vectors, `reflection` returns `d * 2 * (d·n) - n`, i.e. the
spec formula `2·(d·n)·d − n`; concretely `(0,0,-1).reflection((0,0,1))` is
`(0,0,1)` within `EPS`. -/
theorem reflection_formula (dv n : RVec) (hd : dotR dv dv = 1) (hn : dotR n n = 1) :
    (toV dv).reflection (toV n) = toV (reflectionSpec dv n) ∧
    Vector.veq ((toV ⟨0, 0, -1⟩).reflection (toV ⟨0, 0, 1⟩)) (toV ⟨0, 0, 1⟩) := by
  have hgen : ∀ a b : RVec, (toV a).reflection (toV b) = toV (reflectionSpec a b) := by
    intro a b
    unfold Vector.reflection
    rw [toV_dot, ← coe_two, toV_smul, toV_smul, toV_sub]
    refine congrArg toV ?_
    unfold reflectionSpec
    ext <;> dsimp only <;> ring
  refine ⟨hgen dv n, ?_⟩
  rw [hgen ⟨0, 0, -1⟩ ⟨0, 0, 1⟩, toV_veq]
  norm_num [reflectionSpec, dotR, EPS]

theorem reflection_formula_witness :
    (toV ⟨0, 0, -1⟩).reflection (toV ⟨0, 0, 1⟩) = toV (reflectionSpec ⟨0, 0, -1⟩ ⟨0, 0, 1⟩) :=
  (reflection_formula ⟨0, 0, -1⟩ ⟨0, 0, 1⟩ (by norm_num [dotR]) (by norm_num [dotR])).1

/-- C1: for unit `n` and `v_in`, `transmission` returns the `infinity()`
sentinel exactly when `cos1 = -(n·v_in) < EPS` or the code's
`cos2_sq = 1 - (1/d)²·(1 - cos1²)` is negative — `cos2_sq` evaluated in the
program's scalar arithmetic (`1/0.0 = +inf`), which for `d ≠ 0` is the real
formula (third conjunct) — and in all other cases a finite direction: the
sentinel is the sole failure signal.  The single corner `d = 0 ∧ cos1 = 1`,
where IEEE produces NaN and the code aborts inside `normalize` instead of
returning, is excluded by the last hypothesis. -/
theorem transmission_sentinel_iff (n v : RVec) (d : ℝ)
    (hn : dotR n n = 1) (hv : dotR v v = 1)
    (hcorner : d ≠ 0 ∨ -dotR n v < 1) :
    ((toV n).transmission (toV v) ((d : ℝ) : EReal) = Vector.infinity ↔
      -dotR n v < EPS ∨ cos2sqE n v d < 0) ∧
    (¬ (-dotR n v < EPS ∨ cos2sqE n v d < 0) →
      Vector.isnoraml ((toV n).transmission (toV v) ((d : ℝ) : EReal))) ∧
    (d ≠ 0 → cos2sqE n v d = ((1 - (1 / d) ^ 2 * (1 - (-dotR n v) ^ 2) : ℝ) : EReal)) := by
  have hsucc : ¬ (-dotR n v < EPS ∨ cos2sqE n v d < 0) →
      (toV n).transmission (toV v) ((d : ℝ) : EReal) = toV (transmissionSpec n v d) := by
    intro hc
    rw [not_or] at hc
    obtain ⟨hc1, hc2⟩ := hc
    have hd : d ≠ 0 := by
      rcases hcorner with hd | hlt
      · exact hd
      · intro h0
        subst h0
        have h0' : 0 < -dotR n v := lt_of_lt_of_le (by norm_num [EPS]) (not_lt.mp hc1)
        exact hc2 (by rw [cos2sqE_zero_bot n v h0' hlt]; exact EReal.bot_lt_zero)
    refine transmission_toV_success n v d hd hc1 (fun hlt0 => hc2 ?_)
    rw [cos2sqE_coe n v d hd]
    exact EReal.coe_neg'.mpr hlt0
  refine ⟨⟨?_, ?_⟩, ?_, fun hd => cos2sqE_coe n v d hd⟩
  · intro heq
    by_contra hcond
    rw [hsucc hcond] at heq
    exact toV_ne_infinity _ heq
  · rintro (h | h)
    · exact transmission_toV_fail1 n v d h
    · by_cases h1 : -dotR n v < EPS
      · exact transmission_toV_fail1 n v d h1
      · exact transmission_toV_fail2 n v d h1 h
  · intro hcond
    rw [hsucc hcond]
    exact isnoraml_toV _

theorem transmission_sentinel_iff_witness :
    (toV ⟨0, 0, 1⟩).transmission (toV ⟨0, 0, 1⟩) ((1 : ℝ) : EReal) = Vector.infinity :=
  (transmission_sentinel_iff ⟨0, 0, 1⟩ ⟨0, 0, 1⟩ 1 (by norm_num [dotR])
      (by norm_num [dotR]) (Or.inl (by norm_num))).1.mpr
    (Or.inl (by norm_num [dotR, EPS]))

/-- C3 counterexample: a failing `transmission` call returns the sentinel, but
the sentinel's third component is `0`, not positive infinity. -/
theorem infinity_sentinel_z_cex :
    (toV ⟨0, 0, 1⟩).transmission (toV ⟨0, 0, 1⟩) ((1 : ℝ) : EReal) = Vector.infinity ∧
    Vector.infinity.z = 0 ∧ (0 : EReal) ≠ ⊤ :=
  ⟨transmission_toV_fail1 ⟨0, 0, 1⟩ ⟨0, 0, 1⟩ 1 (by norm_num [dotR, EPS]), rfl,
   EReal.zero_ne_top⟩

/-- C3 (amended): every failing `transmission` call — `cos1 < EPS`, or the
code's `cos2_sq` negative, which includes the total-internal-reflection
failures at `density = 0` where `1/0.0 = +inf` — returns the sentinel
`infinity()`, whose first two components are `+∞` and whose third is `0`. -/
theorem transmission_fail_sentinel (n v : RVec) (d : ℝ)
    (h : -dotR n v < EPS ∨ cos2sqE n v d < 0) :
    (toV n).transmission (toV v) ((d : ℝ) : EReal) = Vector.infinity ∧
    Vector.infinity.x = ⊤ ∧ Vector.infinity.y = ⊤ ∧ Vector.infinity.z = 0 := by
  refine ⟨?_, rfl, rfl, rfl⟩
  rcases h with h | h
  · exact transmission_toV_fail1 n v d h
  · by_cases h1 : -dotR n v < EPS
    · exact transmission_toV_fail1 n v d h1
    · exact transmission_toV_fail2 n v d h1 h

theorem transmission_fail_sentinel_witness :
    (toV ⟨0, 0, 1⟩).transmission (toV ⟨3 / 5, 0, -4 / 5⟩) ((0 : ℝ) : EReal)
      = Vector.infinity :=
  (transmission_fail_sentinel ⟨0, 0, 1⟩ ⟨3 / 5, 0, -4 / 5⟩ 0
    (Or.inr (by
      rw [cos2sqE_zero_bot ⟨0, 0, 1⟩ ⟨3 / 5, 0, -4 / 5⟩ (by norm_num [dotR])
        (by norm_num [dotR])]
      exact EReal.bot_lt_zero))).1

/-- C10: `isnoraml()` is false on the sentinel `infinity()` and hence on every
failure result of `transmission`, even though the sentinel's third component is
finite. -/
theorem isnoraml_detects_failure (n v : RVec) (d : ℝ)
    (h : -dotR n v < EPS ∨ cos2sqE n v d < 0) :
    ¬ Vector.infinity.isnoraml ∧
    ¬ ((toV n).transmission (toV v) ((d : ℝ) : EReal)).isnoraml ∧
    efinite Vector.infinity.z := by
  have hninf : ¬ Vector.infinity.isnoraml := fun hc => hc.1.1 rfl
  have heq : (toV n).transmission (toV v) ((d : ℝ) : EReal) = Vector.infinity := by
    rcases h with h | h
    · exact transmission_toV_fail1 n v d h
    · by_cases h1 : -dotR n v < EPS
      · exact transmission_toV_fail1 n v d h1
      · exact transmission_toV_fail2 n v d h1 h
  exact ⟨hninf, heq ▸ hninf, EReal.zero_ne_top, EReal.zero_ne_bot⟩

theorem isnoraml_detects_failure_witness :
    ¬ ((toV ⟨1, 0, 0⟩).transmission (toV ⟨1, 0, 0⟩) ((1 : ℝ) : EReal)).isnoraml :=
  (isnoraml_detects_failure ⟨1, 0, 0⟩ ⟨1, 0, 0⟩ 1
    (Or.inl (by norm_num [dotR, EPS]))).2.1

end RT
